import Mathlib

/-!
Verification of the itinerary-planning core of the travel_agent backend
(`travel_agent/backend`): a shallow embedding of the schemas
(`schemas.py`), the distance estimator (`tools/directions.py`), the
day/route planner (`agents/planner.py`), the attraction selector
(`agents/attractions.py`), the validator (`agents/critic.py`), the
heuristic assembler (`graph.py`) and the `/plan` endpoint's graph branch
(`main.py`), with theorems checking the specified properties.

Numeric conventions: Python floats are modelled as rationals (ℚ);
Python `int(x)` is truncation toward zero, `round(x, 2)` is
round-half-to-even at two decimals.  The haversine great-circle distance
(`haversine_km`) uses transcendental float functions and is therefore
modelled as an abstract distance function `DistFn` passed to every
computation that the source feeds with `haversine_km`; all theorems
quantify over it.
-/

deriving instance DecidableEq for Except

set_option maxRecDepth 2000

namespace TravelAgent

/-- Floor of a rational; `Int` division in Lean rounds toward −∞ for the
positive denominator, so this is the mathematical floor. -/
def ratFloor (q : ℚ) : ℤ := q.num / q.den

/-- Python `int(x)` for a rational: truncation toward zero. -/
def pyInt (q : ℚ) : ℤ := if q < 0 then -(ratFloor (-q)) else ratFloor q

/-- Python `round(x, 2)`: round half to even at two decimal places. -/
def pyRound2 (q : ℚ) : ℚ :=
  let s := q * 100
  let f := ratFloor s
  let r := s - (f : ℚ)
  let n : ℤ :=
    if (1 : ℚ)/2 < r then f + 1
    else if r < (1 : ℚ)/2 then f
    else if f % 2 = 0 then f else f + 1
  (n : ℚ) / 100

/-- `tools/directions.py::estimate_walk_minutes(km, kmph=4.0)`:
`max(1, int((km / kmph) * 60))`. -/
def estimate_walk_minutes (km : ℚ) (kmph : ℚ := 4) : ℤ :=
  max 1 (pyInt (km / kmph * 60))

/-- Abstract stand-in for `tools/directions.py::haversine_km`
(transcendental float math, not embeddable exactly);
arguments are `lat1 lon1 lat2 lon2`. -/
def DistFn : Type := ℚ → ℚ → ℚ → ℚ → ℚ

/-- `schemas.py::Place` (the fields the planner and selector read). -/
structure Place where
  name : String
  category : String
  lat : ℚ
  lon : ℚ
  description : Option String
  est_stay_min : ℤ
  price_level : Option ℤ
deriving DecidableEq, Repr

/-- `schemas.py::Transfer`. -/
structure Transfer where
  from_place : String
  to_place : String
  travel_min : ℤ
  distance_km : ℚ
  mode : String
deriving DecidableEq, Repr

/-- Pydantic validation of `schemas.py::Transfer`: `travel_min` in 1..300,
`distance_km` in 0..100, `mode` drawn from the allowed pattern. -/
def mkTransfer (f t : String) (travel : ℤ) (dist : ℚ) (mode : String) :
    Except String Transfer :=
  if 1 ≤ travel ∧ travel ≤ 300 ∧ 0 ≤ dist ∧ dist ≤ 100 ∧
      (mode = "walk" ∨ mode = "transit" ∨ mode = "drive" ∨ mode = "bike") then
    .ok ⟨f, t, travel, dist, mode⟩
  else .error "Transfer validation error"

/-- `schemas.py::DayPlan`.  `date` is the day number of the parsed
`datetime` (ISO date strings are modelled by their day ordinals). -/
structure DayPlan where
  date : ℤ
  morning : List Place
  lunch : Option String
  afternoon : List Place
  dinner : Option String
  evening : List Place
  transfers : List Transfer
deriving DecidableEq, Repr

/-- `schemas.py::UserPreferences` (after pydantic parsing; dates are day
ordinals of the parsed `datetime.fromisoformat` values). -/
structure UserPreferences where
  destination : String
  start_date : ℤ
  end_date : ℤ
  interests : List String
  pace : String
  budget_level : String
  party : ℤ
  locale : String
deriving DecidableEq, Repr

/-- Error-propagating map over a list (the implicit behaviour of a Python
loop that constructs validated pydantic objects: first failure aborts). -/
def mapE {α β : Type} (f : α → Except String β) : List α → Except String (List β)
  | [] => .ok []
  | a :: as => do
    let b ← f a
    let bs ← mapE f as
    .ok (b :: bs)

namespace Planner

/-- `planner.py::ItineraryPlannerAgent._calculate_transfers`: one Transfer
per consecutive pair, haversine distance rounded to 2 decimals, walk
estimate, mode "walk".  Pydantic validation of each `Transfer` can fail. -/
def calculate_transfers (D : DistFn) : List Place → Except String (List Transfer)
  | [] => .ok []
  | [_] => .ok []
  | a :: b :: rest => do
    let d := D a.lat a.lon b.lat b.lon
    let t ← mkTransfer a.name b.name (estimate_walk_minutes d 4) (pyRound2 d) "walk"
    let ts ← calculate_transfers D (b :: rest)
    .ok (t :: ts)

/-- Distances from the current position to each remaining place, as in the
`for i, place in enumerate(remaining)` loop of `_optimize_place_order`. -/
def dists (D : DistFn) (cur : Place) (l : List Place) : List ℚ :=
  l.map (fun p => D cur.lat cur.lon p.lat p.lon)

/-- The argmin loop of `_optimize_place_order`: running over the remaining
distances with state `(best index, best distance)`, updating on a strict
`<` comparison (ties keep the earlier index). -/
def argminAux : List ℚ → ℕ → ℕ → ℚ → ℕ
  | [], _, best, _ => best
  | d :: ds, i, best, bestD =>
    if d < bestD then argminAux ds (i + 1) i d
    else argminAux ds (i + 1) best bestD

/-- Index of the nearest remaining place (`nearest_idx` after the loop in
`_optimize_place_order`); the first comparison against `float('inf')`
always succeeds, so the state after one iteration is `(0, d₀)`. -/
def nnIdx (D : DistFn) (cur : Place) (l : List Place) : ℕ :=
  match dists D cur l with
  | [] => 0
  | d :: ds => argminAux ds 1 0 d

theorem argminAux_lt {l : List ℚ} {i best : ℕ} {bestD : ℚ} (h : best < i) :
    argminAux l i best bestD < i + l.length := by
  induction l generalizing i best bestD with
  | nil => simpa [argminAux] using h
  | cons d ds ih =>
    simp only [argminAux]
    by_cases hd : d < bestD
    · simpa [hd, Nat.add_comm, Nat.add_assoc, Nat.add_left_comm] using
        @ih (i + 1) i d (Nat.lt_succ_self i)
    · simpa [hd, Nat.add_comm, Nat.add_assoc, Nat.add_left_comm] using
        @ih (i + 1) best bestD (Nat.lt_succ_of_lt h)

theorem nnIdx_lt (D : DistFn) (cur : Place) {l : List Place} (h : l ≠ []) :
    nnIdx D cur l < l.length := by
  match l with
  | [] => exact absurd rfl h
  | p :: ps =>
    have : argminAux (dists D cur ps) 1 0 (D cur.lat cur.lon p.lat p.lon) <
        1 + (dists D cur ps).length := argminAux_lt (Nat.zero_lt_one)
    simpa [nnIdx, dists, Nat.add_comm] using this

/-- The greedy `while remaining:` loop of `_optimize_place_order`: pick the
nearest remaining place, append it, remove it from `remaining`. -/
def nnLoop (D : DistFn) : Place → List Place → List Place
  | _, [] => []
  | cur, p :: ps =>
    let rem := p :: ps
    let i := nnIdx D cur rem
    let nxt := rem.getD i p
    nxt :: nnLoop D nxt (rem.eraseIdx i)
termination_by _ l => l.length
decreasing_by
  simp only [List.length_eraseIdx, nnIdx_lt D cur (List.cons_ne_nil p ps), if_true]
  exact Nat.sub_lt (Nat.succ_pos _) Nat.one_pos

/-- `planner.py::_optimize_place_order`: keep the first place, then order
the rest by repeated nearest-neighbour selection. -/
def optimize_place_order (D : DistFn) : List Place → List Place
  | [] => []
  | p :: rest => p :: nnLoop D p rest

/-- The generic fallback Place built by
`planner.py::_create_fallback_plan`: destination exploration, 3 hours. -/
def fallback_place (pref : UserPreferences) : Place :=
  { name := pref.destination ++ " 관광", category := "general", lat := 0, lon := 0,
    description := some (pref.destination ++ " 지역 탐방"),
    est_stay_min := 180, price_level := none }

/-- `planner.py::_create_fallback_plan`: one generic Place per day in the
morning bucket, placeholder lunch/dinner text, no transfers. -/
def create_fallback_plan (pref : UserPreferences) (num_days : ℕ) (start : ℤ) :
    List DayPlan :=
  (List.range num_days).map fun (i : ℕ) =>
    { date := start + (i : ℤ),
      morning := [fallback_place pref],
      lunch := some (pref.destination ++ " 현지 음식 체험"),
      afternoon := [],
      dinner := some (pref.destination ++ " 저녁 식사"),
      evening := [],
      transfers := [] }

/-- The per-day quota computation of `_create_basic_plan`:
`len(places) // max(1, num_days)` clamped per pace. -/
def per_day_quota (pace : String) (nplaces : ℕ) (num_days : ℤ) : ℕ :=
  let base := nplaces / (max 1 num_days).toNat
  if pace = "relaxed" then max 2 (min 4 base)
  else if pace = "packed" then max 4 (min 6 base)
  else max 3 (min 5 base)

/-- The day loop of `_create_basic_plan`: consume `per_day` places per day
from `place_idx`, wrapping to the start when the list is exhausted; split
the slice as first place → morning, second → afternoon, rest → evening;
compute transfers on the slice. -/
def basic_days (D : DistFn) (start : ℤ) (places : List Place) (per_day : ℕ) :
    ℕ → ℕ → ℕ → Except String (List DayPlan)
  | 0, _, _ => .ok []
  | n + 1, i, idx => do
    let slice := (places.drop idx).take per_day
    let idx1 := idx + per_day
    let day_places :=
      if places.length ≤ idx1 ∧ places ≠ [] ∧ slice = [] then places.take 1 else slice
    let idx2 := if places.length ≤ idx1 ∧ places ≠ [] then 0 else idx1
    let ts ← calculate_transfers D day_places
    let rest ← basic_days D start places per_day n (i + 1) idx2
    .ok ({ date := start + i,
           morning := day_places.take 1,
           lunch := none,
           afternoon := (day_places.drop 1).take 1,
           dinner := none,
           evening := day_places.drop 2,
           transfers := ts } :: rest)

/-- `planner.py::_create_basic_plan`.  `num_days = (end - start).days + 1`;
empty place list takes the fallback branch. -/
def create_basic_plan (D : DistFn) (pref : UserPreferences) (places : List Place) :
    Except String (List DayPlan) :=
  let num_days : ℤ := pref.end_date - pref.start_date + 1
  if places = [] then .ok (create_fallback_plan pref num_days.toNat pref.start_date)
  else
    basic_days D pref.start_date places
      (per_day_quota pref.pace places.length num_days) num_days.toNat 0 0

/-- One day of `planner.py::_optimize_for_travel_style`: cap each
time-of-day bucket at `c` places. -/
def trimDay (c : ℕ) (d : DayPlan) : DayPlan :=
  { d with morning := d.morning.take c, afternoon := d.afternoon.take c,
           evening := d.evening.take c }

/-- `planner.py::_optimize_for_travel_style`: relaxed caps every
time-of-day bucket at 2 places, packed at 3; balanced leaves the plan
unchanged.  Transfers are not recomputed here. -/
def optimize_for_travel_style (pace : String) (plan : List DayPlan) : List DayPlan :=
  if pace = "relaxed" then plan.map (trimDay 2)
  else if pace = "packed" then plan.map (trimDay 3)
  else plan

/-- Per-day body of `planner.py::_optimize_routes`: for days with at least
two places, reorder the concatenation by nearest neighbour, re-split into
the original bucket sizes (sequential slicing as in the source), and
recompute transfers on the reordered list. -/
def optimize_route_day (D : DistFn) (d : DayPlan) : Except String DayPlan :=
  let all := d.morning ++ d.afternoon ++ d.evening
  if all.length < 2 then .ok d
  else do
    let ord := optimize_place_order D all
    let m := ord.take d.morning.length
    let a := (ord.drop m.length).take d.afternoon.length
    let e := ord.drop (m.length + a.length)
    let ts ← calculate_transfers D ord
    .ok { d with morning := m, afternoon := a, evening := e, transfers := ts }

/-- `planner.py::_optimize_routes` over all days. -/
def optimize_routes (D : DistFn) : List DayPlan → Except String (List DayPlan)
  | [] => .ok []
  | d :: ds => do
    let d' ← optimize_route_day D d
    let ds' ← optimize_routes D ds
    .ok (d' :: ds')

/-- The synthetic 30-minute café-break pseudo-place inserted by
`_add_meals_and_breaks` for relaxed pace. -/
def cafe_break_place : Place :=
  { name := "카페에서 휴식", category := "restaurant", lat := 0, lon := 0,
    description := some "오전 관광 후 휴식", est_stay_min := 30, price_level := none }

/-- Per-day body of `planner.py::_add_meals_and_breaks`: lunch text from
the last morning place, dinner text from the last afternoon place, and for
relaxed pace with non-empty morning and afternoon a café break inserted at
the start of the afternoon bucket (transfers are NOT recomputed). -/
def add_meals_day (pace : String) (d : DayPlan) : DayPlan :=
  let d1 :=
    match d.morning.getLast? with
    | some p => { d with lunch := some (p.name ++ " 근처에서 점심 식사") }
    | none => d
  let d2 :=
    match d1.afternoon.getLast? with
    | some p => { d1 with dinner := some (p.name ++ " 근처에서 저녁 식사") }
    | none => d1
  if pace = "relaxed" ∧ d2.morning ≠ [] ∧ d2.afternoon ≠ [] then
    { d2 with afternoon := cafe_break_place :: d2.afternoon }
  else d2

/-- `planner.py::_add_meals_and_breaks`. -/
def add_meals_and_breaks (pref : UserPreferences) (plan : List DayPlan) :
    List DayPlan :=
  plan.map (add_meals_day pref.pace)

/-- `planner.py::plan_days` (the module-level wrapper, which runs the agent
pipeline with `research_data=None`, so the weather-adjustment step is the
identity): basic plan → pace trim → route optimisation → meals/breaks.
A pydantic validation failure anywhere surfaces as an error
(re-raised as `ValueError` by the source). -/
def plan_days (D : DistFn) (pref : UserPreferences) (places : List Place) :
    Except String (List DayPlan) := do
  let basic ← create_basic_plan D pref places
  let styled := optimize_for_travel_style pref.pace basic
  let final ← optimize_routes D styled
  .ok (add_meals_and_breaks pref final)

/-- Total number of places scheduled in a day (the concatenation
`morning + afternoon + evening`). -/
def total_places (d : DayPlan) : ℕ :=
  (d.morning ++ d.afternoon ++ d.evening).length

/-- The shape of a fallback day: exactly one generic fallback Place in the
morning, nothing else, no transfers. -/
def fb_shape (pref : UserPreferences) (d : DayPlan) : Prop :=
  d.morning = [fallback_place pref] ∧ d.afternoon = [] ∧ d.evening = [] ∧
    d.transfers = []

end Planner

namespace Critic

/-- A validator issue of `critic.py::validate_plans`.  `duplicate n d`
models the string `f"Duplicate place: {n} on {d}"`, `longWalk w d` the
string `f"Long walking time ({w} min) on {d}"`. -/
inductive Issue where
  | duplicate (name : String) (date : ℤ)
  | longWalk (total : ℤ) (date : ℤ)
deriving DecidableEq, Repr

/-- The issue strings as built by `validate_plans` (the modelled DayPlan
date ordinal stands in for the ISO date string). -/
def render_issue : Issue → String
  | .duplicate n d => "Duplicate place: " ++ n ++ " on " ++ toString d
  | .longWalk w d => "Long walking time (" ++ toString w ++ " min) on " ++ toString d

/-- The inner loop of `validate_plans` over one day's places: flag a
duplicate for every place whose name is already in `seen`, then add the
name (`seen` is the Python set, modelled by a list up to membership). -/
def scan_names (date : ℤ) (seen : List String) : List Place → List Issue × List String
  | [] => ([], seen)
  | p :: ps =>
    let res := scan_names date (p.name :: seen) ps
    ((if p.name ∈ seen then [Issue.duplicate p.name date] else []) ++ res.1, res.2)

/-- The day loop of `critic.py::validate_plans`: duplicate issues for the
day's `morning + afternoon + evening`, then a long-walking issue when the
summed transfer minutes exceed 120. -/
def validate_days (seen : List String) : List DayPlan → List Issue
  | [] => []
  | d :: ds =>
    let s := scan_names d.date seen (d.morning ++ d.afternoon ++ d.evening)
    let walk := (d.transfers.map Transfer.travel_min).sum
    s.1 ++ (if 120 < walk then [Issue.longWalk walk d.date] else []) ++ validate_days s.2 ds

/-- `critic.py::validate_plans` (the module-level compatibility function). -/
def validate_plans (days : List DayPlan) : List Issue := validate_days [] days

/-- All place names scheduled across the itinerary, in traversal order
(each day's `morning + afternoon + evening`). -/
def all_names (days : List DayPlan) : List String :=
  (days.map fun d => (d.morning ++ d.afternoon ++ d.evening).map Place.name).flatten

/-- Whether an issue is a duplicate-place issue mentioning name `x`. -/
def is_dup_for (x : String) : Issue → Bool
  | .duplicate n _ => n = x
  | .longWalk _ _ => false

end Critic

namespace Attractions

/-- A raw candidate place as produced by `tools/places.py` and consumed by
`attractions.py` (a Python dict; optional fields model `.get` defaults). -/
structure Candidate where
  name : String
  category : Option String
  lat : ℚ
  lon : ℚ
  description : Option String
  est_stay_min : Option ℤ
  price_level : Option ℤ
deriving DecidableEq, Repr

/-- Character-list substring test (Python's `needle in hay` on strings). -/
def subStr (n : List Char) : List Char → Bool
  | [] => n.isEmpty
  | c :: cs => n.isPrefixOf (c :: cs) || subStr n cs

/-- Case-insensitive substring test: `needle.lower() in hay.lower()`. -/
def lower_in (needle hay : String) : Bool :=
  subStr needle.toLower.data hay.toLower.data

/-- The scoring loop of `attractions.py::_filter_by_preferences`:
+2 per interest found in the description, +1 per interest found in the
category (case-insensitive substrings), +1 for budget compatibility
(low → `price_level ≤ 1`, mid → `≤ 2`, high → unconditional);
missing dict fields default to `''` / `0` via `.get`. -/
def preference_score (pref : UserPreferences) (c : Candidate) : ℕ :=
  let interest_pts := pref.interests.foldl
    (fun s i =>
      s + (if lower_in i (c.description.getD "") then 2 else 0)
        + (if lower_in i (c.category.getD "") then 1 else 0)) 0
  let budget_pts :=
    if pref.budget_level = "low" then (if c.price_level.getD 0 ≤ 1 then 1 else 0)
    else if pref.budget_level = "mid" then (if c.price_level.getD 0 ≤ 2 then 1 else 0)
    else if pref.budget_level = "high" then 1
    else 0
  interest_pts + budget_pts

/-- `attractions.py::_filter_by_preferences`: keep candidates with score
≥ 1 and stable-sort descending by score (the stored `preference_score` tag
equals the recomputed score, so the sort key is recomputed here). -/
def filter_by_preferences (pref : UserPreferences) (cands : List Candidate) :
    List Candidate :=
  (cands.filter fun c => decide (1 ≤ preference_score pref c)).mergeSort
    (fun a b => decide (preference_score pref b ≤ preference_score pref a))

/-- `attractions.py::AttractionsAgent._optimize_for_travel_style`:
relaxed keeps stays ≥ 90 min capped at 8, packed keeps stays ≤ 120 min
capped at 12, balanced caps at 10. -/
def optimize_for_travel_style (pace : String) (cands : List Candidate) :
    List Candidate :=
  if pace = "relaxed" then (cands.filter fun c => decide (90 ≤ c.est_stay_min.getD 60)).take 8
  else if pace = "packed" then (cands.filter fun c => decide (c.est_stay_min.getD 60 ≤ 120)).take 12
  else cands.take 10

/-- The category keys of `_create_final_selection`'s `categories` dict, in
first-occurrence (insertion) order. -/
def category_keys (cands : List Candidate) : List String :=
  cands.foldl
    (fun ks c => if c.category.getD "poi" ∈ ks then ks else ks ++ [c.category.getD "poi"])
    []

/-- The bucket of candidates under one category key, in input order. -/
def category_bucket (cands : List Candidate) (k : String) : List Candidate :=
  cands.filter fun c => decide (c.category.getD "poi" = k)

/-- `max(1, len(places) // len(categories))` (3 when there are no
categories, as in the source's conditional). -/
def max_per_category (cands : List Candidate) : ℕ :=
  if category_keys cands = [] then 3
  else max 1 (cands.length / (category_keys cands).length)

/-- The candidates picked by `_create_final_selection` before conversion:
at most `max_per_category` from each category bucket, buckets in insertion
order. -/
def final_selection_cands (cands : List Candidate) : List Candidate :=
  ((category_keys cands).map fun k =>
    (category_bucket cands k).take (max_per_category cands)).flatten

/-- The `Place(**{...})` conversion of `_create_final_selection`, with
pydantic validation of `schemas.py::Place`; note the source passes
`place.get("price_level", 0)`, and `0` violates the `ge=1` bound. -/
def mkPlace (c : Candidate) : Except String Place :=
  let est := c.est_stay_min.getD 60
  let pl := c.price_level.getD 0
  if 1 ≤ c.name.length ∧ c.name.length ≤ 200 ∧
      -90 ≤ c.lat ∧ c.lat ≤ 90 ∧ -180 ≤ c.lon ∧ c.lon ≤ 180 ∧
      (∀ s, c.description = some s → s.length ≤ 1000) ∧
      15 ≤ est ∧ est ≤ 480 ∧ 1 ≤ pl ∧ pl ≤ 4 then
    .ok { name := c.name, category := c.category.getD "poi", lat := c.lat,
          lon := c.lon, description := c.description, est_stay_min := est,
          price_level := some pl }
  else .error "Place validation error"

/-- `attractions.py::_create_final_selection`: convert the bucket
selection to `Place`s (any validation failure aborts), then truncate to
the input count. -/
def create_final_selection (cands : List Candidate) : Except String (List Place) := do
  let built ← mapE mkPlace (final_selection_cands cands)
  .ok (built.take cands.length)

/-- The selector pipeline of `attractions.py::select_attractions` with
`research_data=None` (the compatibility wrapper's call), so the weather
step is the identity: filter/score → pace truncation → final selection. -/
def select_attractions (pref : UserPreferences) (base_places : List Candidate) :
    Except String (List Place) :=
  create_final_selection
    (optimize_for_travel_style pref.pace (filter_by_preferences pref base_places))

end Attractions

/-- `schemas.py::Tips` (the list fields used by the assembler). -/
structure Tips where
  etiquette : List String
  packing : List String
  safety : List String
deriving DecidableEq, Repr

/-- `agents/local_guide.py::get_local_tips` (module-level compatibility
function): a constant Tips value, independent of the locale argument. -/
def get_local_tips (_locale : String) : Tips :=
  { etiquette := ["현지 식당의 예약 문화를 존중하세요.", "종교 시설 방문 시 복장 규정을 확인하세요."],
    packing := ["편한 신발", "보조 배터리", "현지용 유심/ESIM"],
    safety := ["소매치기 주의", "늦은 밤 외진 골목 피하기"] }

/-- `schemas.py::Itinerary` (the fields the assembler sets). -/
structure Itinerary where
  summary : String
  days : List DayPlan
  tips : Tips
deriving DecidableEq, Repr

/-- Pydantic validation of `schemas.py::Itinerary`: `summary` at most 500
characters, `days` between 1 and 30 entries. -/
def mkItinerary (summary : String) (days : List DayPlan) (tips : Tips) :
    Except String Itinerary :=
  if summary.length ≤ 500 ∧ 1 ≤ days.length ∧ days.length ≤ 30 then
    .ok ⟨summary, days, tips⟩
  else .error "Itinerary validation error"

/-- `schemas.py::PlanResponse` (the fields relevant to the claims;
`mode` is declared `Field(...)`, i.e. required with no default). -/
structure PlanResponse where
  itinerary : Itinerary
  success : Bool
  message : String
  mode : String
deriving DecidableEq, Repr

/-- Pydantic construction of `schemas.py::PlanResponse`: `mode` is a
required field, so constructing without it (`mode = none` here) raises a
validation error. -/
def mkPlanResponse (it : Itinerary) (mode : Option String) :
    Except String PlanResponse :=
  match mode with
  | none => .error "PlanResponse validation error: mode field required"
  | some m => .ok ⟨it, true, "여행 계획이 성공적으로 생성되었습니다", m⟩

namespace Graph

/-- The summary string built by `graph.py::plan_itinerary`
(`', '.join(interests) or '일반'`, then appended validator issues).
The date ordinals stand in for the ISO date strings. -/
def summary_for (pref : UserPreferences) (issues : List Critic.Issue) : String :=
  let j := String.intercalate ", " pref.interests
  let base := pref.destination ++ " " ++ toString pref.start_date ++ "~" ++
    toString pref.end_date ++ ", 관심사: " ++ (if j = "" then "일반" else j)
  if issues = [] then base
  else base ++ "\n주의사항: " ++ String.intercalate "; " (issues.map Critic.render_issue)

/-- `graph.py::plan_itinerary`, parameterised by the result `places` of
`select_attractions` (external data collaborators are out of scope; the
discarded `run_research` call is omitted).  The source's final statement
is `PlanResponse(itinerary=itinerary)` — no `mode` argument. -/
def plan_itinerary (D : DistFn) (pref : UserPreferences) (places : List Place) :
    Except String PlanResponse :=
  if places = [] then .error "No candidate places"
  else do
    let days ← Planner.plan_days D pref places
    let issues := Critic.validate_plans days
    let it ← mkItinerary (summary_for pref issues) days (get_local_tips pref.locale)
    mkPlanResponse it none

end Graph

namespace Main

/-- `main.py::validate_preferences` on an already-parsed
`UserPreferences`: non-empty stripped destination, non-empty interests,
start strictly before end, and a span of at most 30 days
(`(end - start).days > 30` is rejected). -/
def validate_preferences (pref : UserPreferences) : Bool :=
  !(pref.destination.trim = "") && !pref.interests.isEmpty &&
    decide (pref.start_date < pref.end_date) &&
    decide (pref.end_date - pref.start_date ≤ 30)

/-- The `days` list bound of `schemas.py::Itinerary`
(`min_length=1, max_length=30`), i.e. the branch of Itinerary validation
the day count can violate. -/
def days_length_ok (days : List DayPlan) : Bool :=
  decide (1 ≤ days.length ∧ days.length ≤ 30)

/-- The fallback Place of `main.py::_create_fallback_plan`. -/
def main_fallback_place (pref : UserPreferences) : Place :=
  { name := pref.destination ++ " 관광", category := "general", lat := 0, lon := 0,
    description := some (pref.destination ++ " 지역 탐방 및 현지 문화 체험"),
    est_stay_min := 180, price_level := none }

/-- The day list of `main.py::_create_fallback_plan`: one fallback Place
per day in the morning bucket, no transfers. -/
def main_fallback_days (pref : UserPreferences) : List DayPlan :=
  (List.range (pref.end_date - pref.start_date + 1).toNat).map fun (i : ℕ) =>
    { date := pref.start_date + (i : ℤ),
      morning := [main_fallback_place pref],
      lunch := some (pref.destination ++ " 현지 음식 체험"),
      afternoon := [],
      dinner := some (pref.destination ++ " 저녁 식사"),
      evening := [],
      transfers := [] }

/-- The constant Tips of `main.py::_create_fallback_plan`. -/
def main_fallback_tips : Tips :=
  { etiquette := ["현지 문화와 관습을 존중하세요", "기본적인 여행 예의를 준수하세요"],
    packing := ["편한 신발", "보조 배터리", "현지용 유심/ESIM", "여권 및 신분증"],
    safety := ["소매치기 주의", "늦은 밤 외진 골목 피하기", "긴급연락처 준비"] }

/-- The constant Tips of the emergency branch of
`main.py::_create_fallback_plan`. -/
def emergency_tips : Tips :=
  { etiquette := ["기본적인 여행 예의 준수"],
    packing := ["필수 여행용품"],
    safety := ["안전한 여행"] }

/-- The summary string of `main.py::_create_fallback_plan`. -/
def main_summary (pref : UserPreferences) : String :=
  let j := String.intercalate ", " pref.interests
  pref.destination ++ " " ++ toString pref.start_date ++ "~" ++
    toString pref.end_date ++ ", 관심사: " ++ (if j = "" then "일반" else j)

/-- `main.py::_create_fallback_plan`: build the fallback PlanResponse with
`mode="fallback"`; if its Itinerary fails validation, fall back to the
emergency response with an empty `days` list (whose own validation failure
propagates, surfacing as the endpoint's HTTP 500). -/
def create_fallback_plan (pref : UserPreferences) : Except String PlanResponse :=
  match mkItinerary (main_summary pref) (main_fallback_days pref) main_fallback_tips with
  | .ok it => .ok ⟨it, true, "여행 계획이 성공적으로 생성되었습니다", "fallback"⟩
  | .error _ =>
    match mkItinerary (pref.destination ++ " 기본 여행 계획") [] emergency_tips with
    | .ok it => .ok ⟨it, true, "여행 계획이 성공적으로 생성되었습니다", "emergency_fallback"⟩
    | .error e => .error e

/-- The graph-mode branch of `main.py::create_travel_plan` (weather and
local-info enrichment omitted — they never change the itinerary days):
run `plan_itinerary`; on an empty-days result or on any exception, return
`_create_fallback_plan`; an error there becomes the HTTP 500. -/
def create_travel_plan_graph (D : DistFn) (pref : UserPreferences)
    (places : List Place) : Except String PlanResponse :=
  match Graph.plan_itinerary D pref places with
  | .ok r => if r.itinerary.days = [] then create_fallback_plan pref else .ok r
  | .error _ => create_fallback_plan pref

end Main

/-! ### Concrete inputs used by counterexamples and witnesses -/

/-- A distance function returning 1 km everywhere (two nearby places). -/
def unit_dist : DistFn := fun _ _ _ _ => 1

/-- A distance function returning 5 km everywhere (used to exercise the
nearest-neighbour tie-break: all remaining candidates are equidistant). -/
def tie_dist : DistFn := fun _ _ _ _ => 5

/-- A distance function returning 20015 km, the haversine magnitude for
antipodal coordinates: `haversine_km(0, 0, 0, 180) = 6371·π ≈ 20015.09`. -/
def far_dist : DistFn := fun _ _ _ _ => 20015

/-- A concrete museum place. -/
def place_A : Place :=
  { name := "A", category := "museum", lat := 1, lon := 1,
    description := none, est_stay_min := 60, price_level := none }

/-- A concrete park place about 1.1 km from `place_A` (0.01° of
longitude), consistent with `unit_dist`. -/
def place_B : Place :=
  { name := "B", category := "park", lat := 1, lon := 101/100,
    description := none, est_stay_min := 60, price_level := none }

/-- A place at the origin (0°, 0°). -/
def place_P : Place :=
  { name := "P", category := "poi", lat := 0, lon := 0,
    description := none, est_stay_min := 60, price_level := none }

/-- The antipode of `place_P` (0°, 180°), a valid Place 6371·π km away. -/
def place_Q : Place :=
  { name := "Q", category := "poi", lat := 0, lon := 180,
    description := none, est_stay_min := 60, price_level := none }

/-- Valid relaxed-pace preferences for a 2-day trip (days 0 and 1). -/
def pref_relaxed_2d : UserPreferences :=
  { destination := "Paris", start_date := 0, end_date := 1,
    interests := ["history"], pace := "relaxed", budget_level := "mid",
    party := 2, locale := "ko_KR" }

/-- Valid balanced-pace preferences for a 2-day trip (days 0 and 1). -/
def pref_balanced_2d : UserPreferences :=
  { destination := "Paris", start_date := 0, end_date := 1,
    interests := ["history"], pace := "balanced", budget_level := "mid",
    party := 2, locale := "ko_KR" }

/-- Valid preferences whose span `(end - start).days` is exactly 30 — the
largest span `main.py::validate_preferences` accepts (it rejects `> 30`),
covering 31 calendar days. -/
def pref_span30 : UserPreferences :=
  { destination := "Paris", start_date := 0, end_date := 30,
    interests := ["history"], pace := "balanced", budget_level := "mid",
    party := 2, locale := "ko_KR" }

/-- The transfer produced between `place_A` and `place_B` under
`unit_dist`: 1 km, 15 walk minutes. -/
def witness_transfer : Transfer :=
  { from_place := "A", to_place := "B", travel_min := 15, distance_km := 1,
    mode := "walk" }

/-- Day 0 of the balanced-pace run of `plan_days` on
`[place_A, place_B]` under `unit_dist`. -/
def witness_day : DayPlan :=
  { date := 0, morning := [place_A], lunch := some "A 근처에서 점심 식사",
    afternoon := [place_B], dinner := some "B 근처에서 저녁 식사", evening := [],
    transfers := [witness_transfer] }

/-- The full result of the balanced-pace run of `plan_days` on
`[place_A, place_B]` under `unit_dist` (places wrap around, so both days
are identical up to the date). -/
def witness_days : List DayPlan :=
  [witness_day, { witness_day with date := 1 }]

/-- A candidate matching the demo preferences (`pref_demo`): description
mentions the interest, price level compatible with a mid budget. -/
def cand_demo : Attractions.Candidate :=
  { name := "Louvre", category := some "museum", lat := 48, lon := 2,
    description := some "art museum", est_stay_min := some 120,
    price_level := some 2 }

/-- Preferences used with `cand_demo`: one interest "art", mid budget. -/
def pref_demo : UserPreferences :=
  { destination := "Paris", start_date := 0, end_date := 1,
    interests := ["art"], pace := "balanced", budget_level := "mid",
    party := 2, locale := "ko_KR" }

/-- The Place the selector builds from `cand_demo`. -/
def place_demo : Place :=
  { name := "Louvre", category := "museum", lat := 48, lon := 2,
    description := some "art museum", est_stay_min := 120,
    price_level := some 2 }

/-- Checks the claimed transfer-count invariant
`len(transfers) = max(0, total_places - 1)` on every day of a planner
result (vacuously true on an error). -/
def transfer_count_check (e : Except String (List DayPlan)) : Bool :=
  match e with
  | .ok days => days.all fun d => decide (d.transfers.length = Planner.total_places d - 1)
  | .error _ => true

/-- Checks the Itinerary `days`-bound on a planner result (vacuously true
on an error). -/
def days_length_check (e : Except String (List DayPlan)) : Bool :=
  match e with
  | .ok days => Main.days_length_ok days
  | .error _ => true

/-! ### General lemmas -/

theorem except_bind_ok {ε α β : Type} (x : Except ε α) (f : α → Except ε β) (b : β) :
    (x >>= f = .ok b) ↔ ∃ a, x = .ok a ∧ f a = .ok b := by
  cases x <;> simp [Bind.bind, Except.bind]

theorem except_isOk_false {ε α : Type} (x : Except ε α) :
    x.isOk = false ↔ ∃ e, x = .error e := by
  cases x <;> simp [Except.isOk, Except.toBool]

theorem ratFloor_eq_floor (q : ℚ) : ratFloor q = ⌊q⌋ := Rat.floor_def.symm

theorem pyInt_eq_floor {q : ℚ} (h : 0 ≤ q) : pyInt q = ⌊q⌋ := by
  rw [pyInt, if_neg (not_lt.mpr h), ratFloor_eq_floor]

theorem take_append_drop_len {α : Type} (l : List α) (k : ℕ) :
    l.take k ++ l.drop (l.take k).length = l := by
  rcases le_total k l.length with h | h
  · rw [List.length_take, Nat.min_eq_left h, List.take_append_drop]
  · rw [List.length_take, Nat.min_eq_right h, List.take_of_length_le h,
      List.drop_length, List.append_nil]

theorem split3 {α : Type} (l : List α) :
    l.take 1 ++ ((l.drop 1).take 1 ++ l.drop 2) = l := by
  match l with
  | [] => rfl
  | [a] => rfl
  | a :: b :: rest => simp [List.take, List.drop]

namespace Planner

theorem mkTransfer_ok_bounds {f t : String} {tr : ℤ} {d : ℚ} {m : String}
    {x : Transfer} (h : mkTransfer f t tr d m = .ok x) :
    1 ≤ x.travel_min ∧ x.travel_min ≤ 300 ∧ 0 ≤ x.distance_km ∧ x.distance_km ≤ 100 := by
  rw [mkTransfer] at h
  split_ifs at h with hc
  cases h
  exact ⟨hc.1, hc.2.1, hc.2.2.1, hc.2.2.2.1⟩

theorem mkTransfer_not_ok {f t : String} {tr : ℤ} {d : ℚ} {m : String}
    (h : 300 < tr) : (mkTransfer f t tr d m).isOk = false := by
  rw [mkTransfer]
  split_ifs with hc
  · exact absurd hc.2.1 (by omega)
  · rfl

theorem calculate_transfers_ok_length {D : DistFn} :
    ∀ {ps : List Place} {ts : List Transfer},
      calculate_transfers D ps = .ok ts → ts.length = ps.length - 1 := by
  intro ps
  induction ps with
  | nil =>
    intro ts h
    rw [calculate_transfers] at h
    cases h
    rfl
  | cons a ps ih =>
    cases ps with
    | nil =>
      intro ts h
      rw [calculate_transfers] at h
      cases h
      rfl
    | cons b rest =>
      intro ts h
      rw [calculate_transfers] at h
      rw [except_bind_ok] at h
      obtain ⟨t, -, h⟩ := h
      rw [except_bind_ok] at h
      obtain ⟨ts', hrec, h⟩ := h
      cases h
      have := ih hrec
      simp only [List.length_cons] at this ⊢
      omega

theorem calculate_transfers_ok_bounds {D : DistFn} :
    ∀ {ps : List Place} {ts : List Transfer},
      calculate_transfers D ps = .ok ts →
      ∀ t ∈ ts, 1 ≤ t.travel_min ∧ t.travel_min ≤ 300 ∧
        0 ≤ t.distance_km ∧ t.distance_km ≤ 100 := by
  intro ps
  induction ps with
  | nil =>
    intro ts h
    rw [calculate_transfers] at h
    cases h
    intro t ht
    cases ht
  | cons a ps ih =>
    cases ps with
    | nil =>
      intro ts h
      rw [calculate_transfers] at h
      cases h
      intro t ht
      cases ht
    | cons b rest =>
      intro ts h
      rw [calculate_transfers] at h
      rw [except_bind_ok] at h
      obtain ⟨t, hmk, h⟩ := h
      rw [except_bind_ok] at h
      obtain ⟨ts', hrec, h⟩ := h
      cases h
      intro u hu
      rcases List.mem_cons.mp hu with rfl | hu'
      · exact mkTransfer_ok_bounds hmk
      · exact ih hrec u hu'

/-- A consecutive pair whose distance violates the Transfer bounds: more
than 100 km apart, or a walk estimate above 300 minutes. -/
def bad_pair (D : DistFn) (a b : Place) : Prop :=
  100 < D a.lat a.lon b.lat b.lon ∨
    300 < estimate_walk_minutes (D a.lat a.lon b.lat b.lon) 4

theorem bad_pair_walk {D : DistFn} {a b : Place} (h : bad_pair D a b) :
    300 < estimate_walk_minutes (D a.lat a.lon b.lat b.lon) 4 := by
  rcases h with h | h
  · have h0 : (0 : ℚ) ≤ D a.lat a.lon b.lat b.lon / 4 * 60 := by
      have : (0 : ℚ) ≤ D a.lat a.lon b.lat b.lon := by linarith
      positivity
    have hfl : (1500 : ℤ) ≤ pyInt (D a.lat a.lon b.lat b.lon / 4 * 60) := by
      rw [pyInt_eq_floor h0]
      refine Int.le_floor.mpr ?_
      push_cast
      linarith
    calc (300 : ℤ) < 1500 := by norm_num
      _ ≤ pyInt (D a.lat a.lon b.lat b.lon / 4 * 60) := hfl
      _ ≤ estimate_walk_minutes (D a.lat a.lon b.lat b.lon) 4 := le_max_right _ _
  · exact h

theorem calculate_transfers_err {D : DistFn} :
    ∀ (pre : List Place) (a b : Place) (post : List Place), bad_pair D a b →
      (calculate_transfers D (pre ++ a :: b :: post)).isOk = false := by
  intro pre
  induction pre with
  | nil =>
    intro a b post hbad
    rw [List.nil_append, calculate_transfers]
    have hmk := mkTransfer_not_ok (f := a.name) (t := b.name)
      (d := pyRound2 (D a.lat a.lon b.lat b.lon)) (m := "walk") (bad_pair_walk hbad)
    rcases (except_isOk_false _).mp hmk with ⟨e, he⟩
    rw [he]
    rfl
  | cons p pre ih =>
    intro a b post hbad
    have htail := ih a b post hbad
    rcases htl : pre ++ a :: b :: post with _ | ⟨q, rest⟩
    · cases pre <;> simp at htl
    · rw [List.cons_append, htl, calculate_transfers]
      rcases hmk : mkTransfer p.name q.name
          (estimate_walk_minutes (D p.lat p.lon q.lat q.lon) 4)
          (pyRound2 (D p.lat p.lon q.lat q.lon)) "walk" with e | t
      · rfl
      · rw [htl] at htail
        rcases (except_isOk_false _).mp htail with ⟨e, he⟩
        rw [he]
        rfl

theorem nnLoop_length (D : DistFn) : ∀ (cur : Place) (l : List Place),
    (nnLoop D cur l).length = l.length := by
  have key : ∀ (n : ℕ) (cur : Place) (l : List Place), l.length = n →
      (nnLoop D cur l).length = l.length := by
    intro n
    induction n using Nat.strong_induction_on with
    | _ n ih =>
      intro cur l hlen
      rcases l with _ | ⟨p, ps⟩
      · simp [nnLoop]
      · rw [nnLoop]
        simp only [List.length_cons]
        have hi : nnIdx D cur (p :: ps) < (p :: ps).length :=
          nnIdx_lt D cur (List.cons_ne_nil p ps)
        have herase : ((p :: ps).eraseIdx (nnIdx D cur (p :: ps))).length = ps.length := by
          rw [List.length_eraseIdx, if_pos hi]
          simp
        have hlt : ps.length < n := by
          simp only [List.length_cons] at hlen
          omega
        have hrec := ih ps.length hlt ((p :: ps).getD (nnIdx D cur (p :: ps)) p)
          ((p :: ps).eraseIdx (nnIdx D cur (p :: ps))) herase
        rw [hrec, herase]
  exact fun cur l => key l.length cur l rfl

theorem optimize_place_order_length (D : DistFn) (l : List Place) :
    (optimize_place_order D l).length = l.length := by
  match l with
  | [] => rfl
  | p :: rest =>
    rw [optimize_place_order]
    simp [nnLoop_length]

theorem argminAux_correct {full : List ℚ} :
    ∀ (ds : List ℚ) (i best : ℕ) (bestD : ℚ),
      full.drop i = ds → i ≤ full.length → best < i →
      full.getD best 0 = bestD →
      (∀ j, j < i → bestD ≤ full.getD j 0) →
      (∀ j, j < best → bestD < full.getD j 0) →
      argminAux ds i best bestD < full.length ∧
      (∀ j, j < full.length →
        full.getD (argminAux ds i best bestD) 0 ≤ full.getD j 0) ∧
      (∀ j, j < argminAux ds i best bestD →
        full.getD (argminAux ds i best bestD) 0 < full.getD j 0) := by
  intro ds
  induction ds with
  | nil =>
    intro i best bestD hdrop hi hbi hval hseen hstrict
    have hlen : full.length ≤ i := List.drop_eq_nil_iff.mp hdrop
    simp only [argminAux]
    refine ⟨by omega, ?_, ?_⟩
    · intro j hj
      rw [hval]
      exact hseen j (by omega)
    · intro j hj
      rw [hval]
      exact hstrict j hj
  | cons d ds ih =>
    intro i best bestD hdrop hi hbi hval hseen hstrict
    have hilt : i < full.length := by
      by_contra hcon
      have : full.drop i = [] := List.drop_eq_nil_of_le (by omega)
      rw [this] at hdrop
      cases hdrop
    have hdi : full.getD i 0 = d := by
      have h1 : (full.drop i).head? = some d := by rw [hdrop]; rfl
      rw [List.head?_drop] at h1
      rw [List.getD_eq_getElem?_getD, h1]
      rfl
    have hdrop' : full.drop (i + 1) = ds := by
      have h2 := List.drop_eq_getElem_cons hilt (l := full)
      rw [hdrop] at h2
      have h3 : full[i] = d := by
        have h1 : (full.drop i).head? = some d := by rw [hdrop]; rfl
        rw [List.head?_drop] at h1
        simpa [List.getElem?_eq_getElem hilt] using h1
      rw [h3] at h2
      exact (List.cons_inj_right d).mp h2.symm
    simp only [argminAux]
    by_cases hcase : d < bestD
    · rw [if_pos hcase]
      refine ih (i + 1) i d hdrop' (by omega) (by omega) hdi ?_ ?_
      · intro j hj
        rcases Nat.lt_succ_iff_lt_or_eq.mp hj with hj' | rfl
        · exact le_of_lt (lt_of_lt_of_le hcase (hseen j hj'))
        · rw [hdi]
      · intro j hj
        exact lt_of_lt_of_le hcase (hseen j hj)
    · rw [if_neg hcase]
      refine ih (i + 1) best bestD hdrop' (by omega) (by omega) hval ?_ hstrict
      intro j hj
      rcases Nat.lt_succ_iff_lt_or_eq.mp hj with hj' | rfl
      · exact hseen j hj'
      · rw [hdi]
        exact not_lt.mp hcase

theorem nnIdx_correct (D : DistFn) (cur : Place) {l : List Place} (h : l ≠ []) :
    nnIdx D cur l < l.length ∧
    (∀ j, j < l.length →
      (dists D cur l).getD (nnIdx D cur l) 0 ≤ (dists D cur l).getD j 0) ∧
    (∀ j, j < nnIdx D cur l →
      (dists D cur l).getD (nnIdx D cur l) 0 < (dists D cur l).getD j 0) := by
  match l with
  | [] => exact absurd rfl h
  | p :: ps =>
    have hfull : (dists D cur (p :: ps)).length = (p :: ps).length := by
      simp [dists]
    have hnn : nnIdx D cur (p :: ps) =
        argminAux (dists D cur ps) 1 0 (D cur.lat cur.lon p.lat p.lon) := by
      simp [nnIdx, dists]
    have hmain := @argminAux_correct (dists D cur (p :: ps))
      (dists D cur ps) 1 0 (D cur.lat cur.lon p.lat p.lon)
      (by simp [dists]) (by simp [dists]) Nat.zero_lt_one
      (by simp [dists]) ?_ ?_
    · rw [hnn, ← hfull]
      exact hmain
    · intro j hj
      interval_cases j
      simp [dists]
    · intro j hj
      omega

theorem basic_days_ok_spec {D : DistFn} {start : ℤ} {places : List Place} {pd : ℕ} :
    ∀ {n i idx : ℕ} {days : List DayPlan},
      basic_days D start places pd n i idx = .ok days →
      days.length = n ∧
      ∀ k (hk : k < days.length), (days.get ⟨k, hk⟩).date = start + (i + k : ℕ) := by
  intro n
  induction n with
  | zero =>
    intro i idx days h
    rw [basic_days] at h
    cases h
    exact ⟨rfl, fun k hk => absurd hk (by simp)⟩
  | succ n ih =>
    intro i idx days h
    simp only [basic_days] at h
    rw [except_bind_ok] at h
    obtain ⟨ts, hts, h⟩ := h
    rw [except_bind_ok] at h
    obtain ⟨rest, hrest, h⟩ := h
    cases h
    obtain ⟨hlen, hdates⟩ := ih hrest
    refine ⟨by simp [hlen], ?_⟩
    intro k hk
    match k with
    | 0 => simp
    | k + 1 =>
      have hk' : k < rest.length := by
        simp only [List.length_cons] at hk
        omega
      have := hdates k hk'
      simp only [List.get_cons_succ]
      rw [this]
      push_cast
      ring

theorem basic_days_ok_inv {D : DistFn} {start : ℤ} {places : List Place} {pd : ℕ} :
    ∀ {n i idx : ℕ} {days : List DayPlan},
      basic_days D start places pd n i idx = .ok days →
      ∀ d ∈ days, d.transfers.length = total_places d - 1 := by
  intro n
  induction n with
  | zero =>
    intro i idx days h
    rw [basic_days] at h
    cases h
    intro d hd
    cases hd
  | succ n ih =>
    intro i idx days h
    simp only [basic_days] at h
    rw [except_bind_ok] at h
    obtain ⟨ts, hts, h⟩ := h
    rw [except_bind_ok] at h
    obtain ⟨rest, hrest, h⟩ := h
    cases h
    intro d hd
    rcases List.mem_cons.mp hd with rfl | hd'
    · have hlen := calculate_transfers_ok_length hts
      simp only [total_places]
      rw [List.append_assoc, split3]
      exact hlen
    · exact ih hrest d hd'

theorem create_fallback_plan_shape (pref : UserPreferences) (n : ℕ) (start : ℤ) :
    ∀ d ∈ create_fallback_plan pref n start,
      d.morning = [fallback_place pref] ∧ d.afternoon = [] ∧ d.evening = [] ∧
      d.transfers = [] := by
  intro d hd
  rw [create_fallback_plan] at hd
  obtain ⟨i, hi, rfl⟩ := List.mem_map.mp hd
  exact ⟨rfl, rfl, rfl, rfl⟩

theorem create_fallback_plan_spec (pref : UserPreferences) (n : ℕ) (start : ℤ) :
    (create_fallback_plan pref n start).length = n ∧
    ∀ k (hk : k < (create_fallback_plan pref n start).length),
      ((create_fallback_plan pref n start).get ⟨k, hk⟩).date = start + (k : ℕ) := by
  constructor
  · rw [create_fallback_plan, List.length_map, List.length_range]
  · intro k hk
    have hk' : k < n := by
      rw [create_fallback_plan, List.length_map, List.length_range] at hk
      exact hk
    simp only [create_fallback_plan, List.get_eq_getElem, List.getElem_map,
      List.getElem_range]

theorem create_basic_plan_ok_spec {D : DistFn} {pref : UserPreferences}
    {places : List Place} {days : List DayPlan}
    (h : create_basic_plan D pref places = .ok days) :
    days.length = (pref.end_date - pref.start_date + 1).toNat ∧
    ∀ k (hk : k < days.length), (days.get ⟨k, hk⟩).date = pref.start_date + (k : ℕ) := by
  rw [create_basic_plan] at h
  split_ifs at h with hp
  · cases h
    exact create_fallback_plan_spec pref _ _
  · obtain ⟨hlen, hdates⟩ := basic_days_ok_spec h
    refine ⟨hlen, ?_⟩
    intro k hk
    have := hdates k hk
    simpa using this

theorem create_basic_plan_ok_inv {D : DistFn} {pref : UserPreferences}
    {places : List Place} {days : List DayPlan}
    (h : create_basic_plan D pref places = .ok days) :
    ∀ d ∈ days, d.transfers.length = total_places d - 1 := by
  rw [create_basic_plan] at h
  split_ifs at h with hp
  · cases h
    intro d hd
    obtain ⟨hm, ha, he, ht⟩ := create_fallback_plan_shape pref _ _ d hd
    simp [total_places, hm, ha, he, ht]
  · exact basic_days_ok_inv h

theorem trimDay_inv {c : ℕ} (hc : 2 ≤ c) {d : DayPlan}
    (h : d.transfers.length = total_places d - 1) :
    (trimDay c d).transfers.length = total_places (trimDay c d) - 1 ∨
      2 ≤ total_places (trimDay c d) := by
  by_cases hall : d.morning.length ≤ c ∧ d.afternoon.length ≤ c ∧ d.evening.length ≤ c
  · left
    have h2 : total_places (trimDay c d) = total_places d := by
      simp [trimDay, total_places, List.take_of_length_le hall.1,
        List.take_of_length_le hall.2.1, List.take_of_length_le hall.2.2]
    have h1 : (trimDay c d).transfers = d.transfers := rfl
    rw [h1, h2]
    exact h
  · right
    have hlens : total_places (trimDay c d) =
        min c d.morning.length + (min c d.afternoon.length + min c d.evening.length) := by
      simp [trimDay, total_places, List.length_append, List.length_take]
    rw [hlens]
    omega

theorem ofts_mem {pace : String} {days : List DayPlan} :
    ∀ d' ∈ optimize_for_travel_style pace days,
      (∃ d ∈ days, ∃ c, 2 ≤ c ∧ d' = trimDay c d) ∨ d' ∈ days := by
  intro d' hd'
  rw [optimize_for_travel_style] at hd'
  split_ifs at hd'
  · obtain ⟨d, hd, rfl⟩ := List.mem_map.mp hd'
    exact Or.inl ⟨d, hd, 2, le_refl 2, rfl⟩
  · obtain ⟨d, hd, rfl⟩ := List.mem_map.mp hd'
    exact Or.inl ⟨d, hd, 3, by omega, rfl⟩
  · exact Or.inr hd'

theorem ofts_length (pace : String) (days : List DayPlan) :
    (optimize_for_travel_style pace days).length = days.length := by
  rw [optimize_for_travel_style]
  split_ifs <;> simp

theorem trimDay_date (c : ℕ) (d : DayPlan) : (trimDay c d).date = d.date := rfl

theorem ofts_dates (pace : String) (days : List DayPlan) :
    (optimize_for_travel_style pace days).map DayPlan.date =
      days.map DayPlan.date := by
  rw [optimize_for_travel_style]
  split_ifs <;> simp [List.map_map, Function.comp_def, trimDay]

theorem ofts_inv {pace : String} {days : List DayPlan}
    (h : ∀ d ∈ days, d.transfers.length = total_places d - 1) :
    ∀ d' ∈ optimize_for_travel_style pace days,
      d'.transfers.length = total_places d' - 1 ∨ 2 ≤ total_places d' := by
  intro d' hd'
  rcases ofts_mem d' hd' with ⟨d, hd, c, hc, rfl⟩ | hmem
  · exact trimDay_inv hc (h d hd)
  · exact Or.inl (h d' hmem)

theorem optimize_route_day_ok_inv {D : DistFn} {d d' : DayPlan}
    (h : optimize_route_day D d = .ok d')
    (hinv : d.transfers.length = total_places d - 1 ∨ 2 ≤ total_places d) :
    d'.transfers.length = total_places d' - 1 ∧ d'.date = d.date := by
  simp only [optimize_route_day] at h
  split_ifs at h with hlen
  · cases h
    refine ⟨?_, rfl⟩
    rcases hinv with h1 | h2
    · exact h1
    · exact absurd h2 (by simp only [total_places] at *; omega)
  · rw [except_bind_ok] at h
    obtain ⟨ts, hts, h⟩ := h
    cases h
    refine ⟨?_, rfl⟩
    have hctlen := calculate_transfers_ok_length hts
    set all := d.morning ++ d.afternoon ++ d.evening with hall
    set ord := optimize_place_order D all with hord
    set m := ord.take d.morning.length with hm
    set a := (ord.drop m.length).take d.afternoon.length with ha
    have he : ord.drop (m.length + a.length) = (ord.drop m.length).drop a.length :=
      (List.drop_drop a.length m.length ord).symm
    have hae : a ++ (ord.drop m.length).drop a.length = ord.drop m.length := by
      rw [ha]
      exact take_append_drop_len _ _
    have hm' : m ++ ord.drop m.length = ord := by
      rw [hm]
      exact take_append_drop_len _ _
    have htot : total_places
        { d with morning := m, afternoon := a,
                 evening := ord.drop (m.length + a.length), transfers := ts } =
        ord.length := by
      simp only [total_places]
      rw [List.append_assoc, he, hae, hm']
    rw [htot]
    exact hctlen

theorem optimize_routes_ok {D : DistFn} :
    ∀ {days days' : List DayPlan}, optimize_routes D days = .ok days' →
      days'.length = days.length ∧
      ∀ k (hk' : k < days'.length) (hk : k < days.length),
        optimize_route_day D (days.get ⟨k, hk⟩) = .ok (days'.get ⟨k, hk'⟩) := by
  intro days
  induction days with
  | nil =>
    intro days' h
    rw [optimize_routes] at h
    cases h
    exact ⟨rfl, fun k hk' hk => absurd hk (by simp)⟩
  | cons d ds ih =>
    intro days' h
    simp only [optimize_routes] at h
    rw [except_bind_ok] at h
    obtain ⟨d', hd', h⟩ := h
    rw [except_bind_ok] at h
    obtain ⟨ds', hds', h⟩ := h
    cases h
    obtain ⟨hlen, hget⟩ := ih hds'
    refine ⟨by simp [hlen], ?_⟩
    intro k hk' hk
    match k with
    | 0 => exact hd'
    | k + 1 =>
      have h1 : k < ds'.length := by
        simp only [List.length_cons] at hk'
        omega
      have h2 : k < ds.length := by
        simp only [List.length_cons] at hk
        omega
      simpa using hget k h1 h2

theorem optimize_routes_mem {D : DistFn} {days days' : List DayPlan}
    (h : optimize_routes D days = .ok days') :
    ∀ d' ∈ days', ∃ d ∈ days, optimize_route_day D d = .ok d' := by
  obtain ⟨hlen, hget⟩ := optimize_routes_ok h
  intro d' hd'
  obtain ⟨⟨k, hk'⟩, rfl⟩ := List.mem_iff_get.mp hd'
  exact ⟨days.get ⟨k, by omega⟩, List.get_mem _ _ _, hget k hk' (by omega)⟩

theorem optimize_route_day_date {D : DistFn} {d d' : DayPlan}
    (h : optimize_route_day D d = .ok d') : d'.date = d.date := by
  simp only [optimize_route_day] at h
  split_ifs at h with hlen
  · cases h
    rfl
  · rw [except_bind_ok] at h
    obtain ⟨ts, hts, h⟩ := h
    cases h
    rfl

theorem optimize_routes_dates {D : DistFn} {days days' : List DayPlan}
    (h : optimize_routes D days = .ok days') :
    days'.map DayPlan.date = days.map DayPlan.date := by
  obtain ⟨hlen, hget⟩ := optimize_routes_ok h
  apply List.ext_get (by simp [hlen])
  intro k h1 h2
  simp only [List.get_eq_getElem, List.getElem_map]
  have hk' : k < days'.length := by simpa using h1
  have hk : k < days.length := by simpa using h2
  have := optimize_route_day_date (hget k hk' hk)
  simpa [List.get_eq_getElem] using this

theorem add_meals_day_fields (pace : String) (d : DayPlan) :
    (add_meals_day pace d).date = d.date ∧
    (add_meals_day pace d).transfers = d.transfers ∧
    (add_meals_day pace d).morning = d.morning ∧
    (add_meals_day pace d).evening = d.evening ∧
    ((pace = "relaxed" ∧ d.morning ≠ [] ∧ d.afternoon ≠ []) →
      (add_meals_day pace d).afternoon = cafe_break_place :: d.afternoon) ∧
    (¬(pace = "relaxed" ∧ d.morning ≠ [] ∧ d.afternoon ≠ []) →
      (add_meals_day pace d).afternoon = d.afternoon) := by
  rw [add_meals_day]
  rcases hm : d.morning.getLast? with _ | p <;>
    rcases ha : d.afternoon.getLast? with _ | q <;>
    simp only [hm, ha] <;>
    split_ifs with hc <;>
    simp_all

theorem add_meals_day_inv (pace : String) {d : DayPlan}
    (h : d.transfers.length = total_places d - 1) :
    (add_meals_day pace d).transfers.length =
      total_places (add_meals_day pace d) -
        (if pace = "relaxed" ∧ (add_meals_day pace d).morning ≠ [] ∧
            (add_meals_day pace d).afternoon ≠ [] then 2 else 1) := by
  obtain ⟨hdate, ht, hmor, hev, hpos, hneg⟩ := add_meals_day_fields pace d
  by_cases hcond : pace = "relaxed" ∧ d.morning ≠ [] ∧ d.afternoon ≠ []
  · have haft := hpos hcond
    rw [if_pos ⟨hcond.1, by rw [hmor]; exact hcond.2.1, by rw [haft]; simp⟩, ht]
    have htot : total_places (add_meals_day pace d) = total_places d + 1 := by
      simp only [total_places, hmor, hev, haft, List.length_append, List.length_cons]
      omega
    rw [htot, h]
    have h2 : 2 ≤ total_places d := by
      simp only [total_places, List.length_append]
      have h3 : d.morning.length ≠ 0 := by
        simpa [List.length_eq_zero] using hcond.2.1
      have h4 : d.afternoon.length ≠ 0 := by
        simpa [List.length_eq_zero] using hcond.2.2
      omega
    omega
  · have haft := hneg hcond
    rw [if_neg (by rw [hmor, haft]; exact hcond), ht]
    have htot : total_places (add_meals_day pace d) = total_places d := by
      simp only [total_places, hmor, hev, haft]
    rw [htot]
    exact h

theorem add_meals_dates (pref : UserPreferences) (days : List DayPlan) :
    (add_meals_and_breaks pref days).map DayPlan.date = days.map DayPlan.date := by
  rw [add_meals_and_breaks, List.map_map]
  apply List.map_congr_left
  intro d _
  exact (add_meals_day_fields pref.pace d).1

/-- Master length/date lemma for `plan_days`: any successful run returns
`(end - start + 1).toNat` DayPlans dated consecutively from the start
date. -/
theorem plan_days_ok_spec {D : DistFn} {pref : UserPreferences}
    {places : List Place} {days : List DayPlan}
    (h : plan_days D pref places = .ok days) :
    days.length = (pref.end_date - pref.start_date + 1).toNat ∧
    ∀ k (hk : k < days.length), (days.get ⟨k, hk⟩).date = pref.start_date + (k : ℕ) := by
  rw [plan_days] at h
  rw [except_bind_ok] at h
  obtain ⟨basic, hbasic, h⟩ := h
  rw [except_bind_ok] at h
  obtain ⟨final, hfinal, h⟩ := h
  cases h
  obtain ⟨hblen, hbdates⟩ := create_basic_plan_ok_spec hbasic
  have hdates : (add_meals_and_breaks pref final).map DayPlan.date =
      basic.map DayPlan.date := by
    rw [add_meals_dates, optimize_routes_dates hfinal, ofts_dates]
  have hlen : (add_meals_and_breaks pref final).length = basic.length := by
    have := congrArg List.length hdates
    simpa using this
  refine ⟨by rw [hlen, hblen], ?_⟩
  intro k hk
  have hkb : k < basic.length := by omega
  have h1 : ((add_meals_and_breaks pref final).map DayPlan.date).getD k 0 =
      (basic.map DayPlan.date).getD k 0 := by rw [hdates]
  rw [List.getD_eq_getElem?_getD, List.getD_eq_getElem?_getD] at h1
  rw [List.getElem?_map, List.getElem?_map] at h1
  rw [List.getElem?_eq_getElem hk, List.getElem?_eq_getElem hkb] at h1
  simp at h1
  rw [List.get_eq_getElem, h1]
  have := hbdates k hkb
  rw [List.get_eq_getElem] at this
  exact this

/-- Master transfer-count lemma for `plan_days` (the corrected invariant):
on every returned day, the number of transfers is the number of places
minus 1, except on relaxed-pace days that received the café break, where
it is the number of places minus 2. -/
theorem plan_days_ok_inv {D : DistFn} {pref : UserPreferences}
    {places : List Place} {days : List DayPlan}
    (h : plan_days D pref places = .ok days) :
    ∀ d ∈ days, d.transfers.length =
      total_places d -
        (if pref.pace = "relaxed" ∧ d.morning ≠ [] ∧ d.afternoon ≠ [] then 2 else 1) := by
  rw [plan_days] at h
  rw [except_bind_ok] at h
  obtain ⟨basic, hbasic, h⟩ := h
  rw [except_bind_ok] at h
  obtain ⟨final, hfinal, h⟩ := h
  cases h
  intro d hd
  rw [add_meals_and_breaks] at hd
  obtain ⟨d1, hd1, rfl⟩ := List.mem_map.mp hd
  obtain ⟨d0, hd0, hroute⟩ := optimize_routes_mem hfinal d1 hd1
  have hinv0 := ofts_inv (create_basic_plan_ok_inv hbasic) d0 hd0
  have hinv1 := (optimize_route_day_ok_inv hroute hinv0).1
  exact add_meals_day_inv pref.pace hinv1

theorem basic_days_ok_bounds {D : DistFn} {start : ℤ} {places : List Place} {pd : ℕ} :
    ∀ {n i idx : ℕ} {days : List DayPlan},
      basic_days D start places pd n i idx = .ok days →
      ∀ d ∈ days, ∀ t ∈ d.transfers,
        1 ≤ t.travel_min ∧ t.travel_min ≤ 300 ∧
        0 ≤ t.distance_km ∧ t.distance_km ≤ 100 := by
  intro n
  induction n with
  | zero =>
    intro i idx days h
    rw [basic_days] at h
    cases h
    intro d hd
    cases hd
  | succ n ih =>
    intro i idx days h
    simp only [basic_days] at h
    rw [except_bind_ok] at h
    obtain ⟨ts, hts, h⟩ := h
    rw [except_bind_ok] at h
    obtain ⟨rest, hrest, h⟩ := h
    cases h
    intro d hd
    rcases List.mem_cons.mp hd with rfl | hd'
    · exact calculate_transfers_ok_bounds hts
    · exact ih hrest d hd'

theorem create_basic_plan_ok_bounds {D : DistFn} {pref : UserPreferences}
    {places : List Place} {days : List DayPlan}
    (h : create_basic_plan D pref places = .ok days) :
    ∀ d ∈ days, ∀ t ∈ d.transfers,
      1 ≤ t.travel_min ∧ t.travel_min ≤ 300 ∧
      0 ≤ t.distance_km ∧ t.distance_km ≤ 100 := by
  rw [create_basic_plan] at h
  split_ifs at h with hp
  · cases h
    intro d hd
    obtain ⟨-, -, -, ht⟩ := create_fallback_plan_shape pref _ _ d hd
    rw [ht]
    intro t htm
    cases htm
  · exact basic_days_ok_bounds h

/-- Master transfer-bounds lemma for `plan_days`: every transfer in a
successful result passed pydantic validation. -/
theorem plan_days_ok_bounds {D : DistFn} {pref : UserPreferences}
    {places : List Place} {days : List DayPlan}
    (h : plan_days D pref places = .ok days) :
    ∀ d ∈ days, ∀ t ∈ d.transfers,
      1 ≤ t.travel_min ∧ t.travel_min ≤ 300 ∧
      0 ≤ t.distance_km ∧ t.distance_km ≤ 100 := by
  rw [plan_days] at h
  rw [except_bind_ok] at h
  obtain ⟨basic, hbasic, h⟩ := h
  rw [except_bind_ok] at h
  obtain ⟨final, hfinal, h⟩ := h
  cases h
  have hbasic_b := create_basic_plan_ok_bounds hbasic
  intro d hd
  rw [add_meals_and_breaks] at hd
  obtain ⟨d1, hd1, rfl⟩ := List.mem_map.mp hd
  obtain ⟨d0, hd0, hroute⟩ := optimize_routes_mem hfinal d1 hd1
  have ht1 : ∀ t ∈ d1.transfers,
      1 ≤ t.travel_min ∧ t.travel_min ≤ 300 ∧
      0 ≤ t.distance_km ∧ t.distance_km ≤ 100 := by
    simp only [optimize_route_day] at hroute
    split_ifs at hroute with hlen
    · cases hroute
      rcases ofts_mem d1 hd0 with ⟨db, hdb, c, hc, rfl⟩ | hmem
      · intro t htm
        exact hbasic_b db hdb t htm
      · exact hbasic_b d1 hmem
    · rw [except_bind_ok] at hroute
      obtain ⟨ts, hts, hroute⟩ := hroute
      cases hroute
      exact calculate_transfers_ok_bounds hts
  have := (add_meals_day_fields pref.pace d1).2.1
  rw [this]
  exact ht1

theorem trimDay_shape {pref : UserPreferences} {c : ℕ} (hc : 1 ≤ c) {d : DayPlan}
    (h : fb_shape pref d) : fb_shape pref (trimDay c d) := by
  obtain ⟨hm, ha, he, ht⟩ := h
  refine ⟨?_, ?_, ?_, ht⟩
  · rw [trimDay]
    simp only [hm]
    exact List.take_of_length_le (by simpa using hc)
  · simp [trimDay, ha]
  · simp [trimDay, he]

theorem ofts_shape {pref : UserPreferences} {pace : String} {days : List DayPlan}
    (h : ∀ d ∈ days, fb_shape pref d) :
    ∀ d' ∈ optimize_for_travel_style pace days, fb_shape pref d' := by
  intro d' hd'
  rcases ofts_mem d' hd' with ⟨d, hd, c, hc, rfl⟩ | hmem
  · exact trimDay_shape (by omega) (h d hd)
  · exact h d' hmem

theorem route_day_shape {D : DistFn} {pref : UserPreferences} {d : DayPlan}
    (h : fb_shape pref d) : optimize_route_day D d = .ok d := by
  obtain ⟨hm, ha, he, -⟩ := h
  rw [optimize_route_day, if_pos]
  rw [hm, ha, he]
  simp

theorem routes_shape {D : DistFn} {pref : UserPreferences} :
    ∀ {days : List DayPlan}, (∀ d ∈ days, fb_shape pref d) →
      optimize_routes D days = .ok days := by
  intro days
  induction days with
  | nil => intro _; rw [optimize_routes]
  | cons d ds ih =>
    intro h
    rw [optimize_routes]
    rw [@route_day_shape D pref d (h d (List.mem_cons_self d ds))]
    rw [ih fun x hx => h x (List.mem_cons_of_mem d hx)]
    rfl

theorem meals_day_shape {pref : UserPreferences} {pace : String} {d : DayPlan}
    (h : fb_shape pref d) : fb_shape pref (add_meals_day pace d) := by
  obtain ⟨hdate, ht, hmor, hev, hpos, hneg⟩ := add_meals_day_fields pace d
  have haft : (add_meals_day pace d).afternoon = d.afternoon := by
    apply hneg
    intro hcon
    exact hcon.2.2 h.2.1
  exact ⟨by rw [hmor, h.1], by rw [haft, h.2.1], by rw [hev, h.2.2.1],
    by rw [ht, h.2.2.2]⟩

/-- Master lemma for the empty-place fallback: `plan_days` on an empty
candidate list succeeds, returns one DayPlan per calendar day, and each
day is a pure fallback day. -/
theorem plan_days_empty_spec (D : DistFn) (pref : UserPreferences) :
    ∃ days, plan_days D pref [] = .ok days ∧
      days.length = (pref.end_date - pref.start_date + 1).toNat ∧
      ∀ d ∈ days, fb_shape pref d := by
  set fb := create_fallback_plan pref (pref.end_date - pref.start_date + 1).toNat
    pref.start_date with hfb
  have hshape0 : ∀ d ∈ fb, fb_shape pref d := by
    intro d hd
    exact create_fallback_plan_shape pref _ _ d hd
  have hshape1 : ∀ d ∈ optimize_for_travel_style pref.pace fb, fb_shape pref d :=
    ofts_shape hshape0
  have hroutes := routes_shape (D := D) hshape1
  refine ⟨add_meals_and_breaks pref (optimize_for_travel_style pref.pace fb), ?_, ?_, ?_⟩
  · rw [plan_days, create_basic_plan, if_pos rfl, ← hfb]
    show Except.bind _ _ = _
    rw [Except.bind]
    show Except.bind _ _ = _
    rw [hroutes, Except.bind]
  · rw [add_meals_and_breaks, List.length_map, ofts_length, hfb,
      (create_fallback_plan_spec pref _ _).1]
  · intro d hd
    rw [add_meals_and_breaks] at hd
    obtain ⟨d1, hd1, rfl⟩ := List.mem_map.mp hd
    exact meals_day_shape (hshape1 d1 hd1)

end Planner

namespace Critic

theorem scan_names_seen (date : ℤ) :
    ∀ (ps : List Place) (seen : List String) (x : String),
      (x ∈ (scan_names date seen ps).2 ↔ x ∈ seen ∨ x ∈ ps.map Place.name) := by
  intro ps
  induction ps with
  | nil => intro seen x; simp [scan_names]
  | cons p ps ih =>
    intro seen x
    rw [scan_names]
    simp only
    rw [ih (p.name :: seen) x]
    simp [List.mem_cons]
    tauto

theorem scan_names_count (date : ℤ) :
    ∀ (ps : List Place) (seen : List String) (x : String),
      ((scan_names date seen ps).1.countP (is_dup_for x)) =
        (if x ∈ seen then (ps.map Place.name).count x
         else (ps.map Place.name).count x - 1) := by
  intro ps
  induction ps with
  | nil =>
    intro seen x
    simp [scan_names]
  | cons p ps ih =>
    intro seen x
    rw [scan_names]
    simp only [List.countP_append, List.map_cons]
    rw [ih (p.name :: seen) x]
    by_cases hpx : p.name = x
    · subst hpx
      by_cases hseen : p.name ∈ seen
      · rw [if_pos hseen, if_pos (List.mem_cons_self _ _),
          if_pos hseen, List.count_cons_self]
        simp [is_dup_for]
        omega
      · rw [if_neg hseen, if_pos (List.mem_cons_self _ _),
          if_neg hseen, List.count_cons_self]
        simp
    · have hhead : (if p.name ∈ seen then [Issue.duplicate p.name date]
          else ([] : List Issue)).countP (is_dup_for x) = 0 := by
        split_ifs <;> simp [is_dup_for, hpx]
      rw [hhead]
      have hcount : ((p.name :: ps.map Place.name).count x) =
          (ps.map Place.name).count x := List.count_cons_of_ne (by
            intro hcon
            exact hpx hcon.symm) _
      have hmem : (x ∈ p.name :: seen) ↔ x ∈ seen := by
        simp [List.mem_cons]
        intro hcon
        exact absurd hcon.symm hpx
      by_cases hseen : x ∈ seen
      · rw [if_pos (hmem.mpr hseen), if_pos hseen, hcount]
        simp
      · rw [if_neg (fun hc => hseen (hmem.mp hc)), if_neg hseen, hcount]
        simp

theorem validate_days_count :
    ∀ (days : List DayPlan) (seen : List String) (x : String),
      (validate_days seen days).countP (is_dup_for x) =
        (if x ∈ seen then (all_names days).count x
         else (all_names days).count x - 1) := by
  intro days
  induction days with
  | nil =>
    intro seen x
    simp [validate_days, all_names]
  | cons d ds ih =>
    intro seen x
    rw [validate_days]
    simp only [List.countP_append]
    have hwalk : (if 120 < (d.transfers.map Transfer.travel_min).sum
        then [Issue.longWalk (d.transfers.map Transfer.travel_min).sum d.date]
        else ([] : List Issue)).countP (is_dup_for x) = 0 := by
      split_ifs <;> simp [is_dup_for]
    rw [hwalk, scan_names_count, ih]
    have hall : all_names (d :: ds) =
        ((d.morning ++ d.afternoon ++ d.evening).map Place.name) ++ all_names ds := by
      simp [all_names]
    rw [hall, List.count_append]
    set cd := ((d.morning ++ d.afternoon ++ d.evening).map Place.name).count x with hcd
    set cds := (all_names ds).count x with hcds
    have hseen2 : x ∈ (scan_names d.date seen
        (d.morning ++ d.afternoon ++ d.evening)).2 ↔
        x ∈ seen ∨ x ∈ (d.morning ++ d.afternoon ++ d.evening).map Place.name :=
      scan_names_seen d.date _ seen x
    by_cases hseen : x ∈ seen
    · rw [if_pos hseen, if_pos (hseen2.mpr (Or.inl hseen)), if_pos hseen]
      omega
    · rw [if_neg hseen]
      by_cases hd : x ∈ (d.morning ++ d.afternoon ++ d.evening).map Place.name
      · have hcdpos : 1 ≤ cd := by
          rw [hcd]
          exact List.count_pos_iff.mpr hd
        rw [if_pos (hseen2.mpr (Or.inr hd)), if_neg hseen]
        omega
      · have hcd0 : cd = 0 := by
          rw [hcd]
          exact List.count_eq_zero.mpr hd
        rw [if_neg (fun hc => (hseen2.mp hc).elim hseen hd), if_neg hseen]
        omega

theorem validate_plans_dup_count (days : List DayPlan) (x : String) :
    (validate_plans days).countP (is_dup_for x) = (all_names days).count x - 1 := by
  rw [validate_plans, validate_days_count]
  simp

end Critic

namespace Attractions

theorem mem_filter_by_preferences {pref : UserPreferences}
    {cands : List Candidate} {c : Candidate}
    (h : c ∈ filter_by_preferences pref cands) :
    c ∈ cands ∧ 1 ≤ preference_score pref c := by
  rw [filter_by_preferences] at h
  have h1 := List.mem_mergeSort.mp h
  have h2 := List.mem_filter.mp h1
  exact ⟨h2.1, of_decide_eq_true h2.2⟩

theorem mem_ofts {pace : String} {l : List Candidate} {c : Candidate}
    (h : c ∈ optimize_for_travel_style pace l) : c ∈ l := by
  rw [optimize_for_travel_style] at h
  split_ifs at h
  · exact List.mem_of_mem_filter (List.mem_of_mem_take h)
  · exact List.mem_of_mem_filter (List.mem_of_mem_take h)
  · exact List.mem_of_mem_take h

theorem mem_final_selection_cands {cands : List Candidate} {c : Candidate}
    (h : c ∈ final_selection_cands cands) : c ∈ cands := by
  rw [final_selection_cands] at h
  obtain ⟨l, hl, hc⟩ := List.mem_flatten.mp h
  obtain ⟨k, -, rfl⟩ := List.mem_map.mp hl
  exact List.mem_of_mem_filter (List.mem_of_mem_take hc)

end Attractions

theorem mapE_ok_mem {α β : Type} {f : α → Except String β} :
    ∀ {l : List α} {l' : List β}, mapE f l = .ok l' →
      ∀ b ∈ l', ∃ a ∈ l, f a = .ok b := by
  intro l
  induction l with
  | nil =>
    intro l' h
    rw [mapE] at h
    cases h
    intro b hb
    cases hb
  | cons a as ih =>
    intro l' h
    simp only [mapE] at h
    rw [except_bind_ok] at h
    obtain ⟨b, hb, h⟩ := h
    rw [except_bind_ok] at h
    obtain ⟨bs, hbs, h⟩ := h
    cases h
    intro b' hb'
    rcases List.mem_cons.mp hb' with rfl | hb''
    · exact ⟨a, List.mem_cons_self a as, hb⟩
    · obtain ⟨a', ha', hfa⟩ := ih hbs b' hb''
      exact ⟨a', List.mem_cons_of_mem a ha', hfa⟩

/-! ### Claim theorems -/

/-- C1 (counterexample): on a relaxed-pace run, the claimed invariant
`len(transfers) = max(0, total_places - 1)` fails — the café break is
inserted after transfers were computed, so the first day has 3 places but
only 1 transfer. -/
theorem claim_C1_counterexample :
    (Planner.plan_days unit_dist pref_relaxed_2d [place_A, place_B]).isOk = true ∧
    transfer_count_check
      (Planner.plan_days unit_dist pref_relaxed_2d [place_A, place_B]) = false := by
  with_unfolding_all decide

/-- C1 (amended): for every successful `plan_days` run, each DayPlan has
`len(transfers) = total_places - 1`, EXCEPT relaxed-pace days where a café
break was inserted (non-empty morning and afternoon), which have
`len(transfers) = total_places - 2`; the subtraction is ℕ-truncated, so
empty days give `max(0, ...)`. -/
theorem claim_C1_amended (D : DistFn) (pref : UserPreferences)
    (places : List Place) (days : List DayPlan)
    (h : Planner.plan_days D pref places = .ok days) :
    ∀ d ∈ days, d.transfers.length =
      Planner.total_places d -
        (if pref.pace = "relaxed" ∧ d.morning ≠ [] ∧ d.afternoon ≠ [] then 2 else 1) :=
  Planner.plan_days_ok_inv h

/-- C1 (witness): the amended invariant evaluated on the concrete
balanced-pace run of `plan_days` on two places. -/
theorem claim_C1_witness :
    witness_day.transfers.length =
      Planner.total_places witness_day -
        (if pref_balanced_2d.pace = "relaxed" ∧ witness_day.morning ≠ [] ∧
            witness_day.afternoon ≠ [] then 2 else 1) :=
  claim_C1_amended unit_dist pref_balanced_2d [place_A, place_B] witness_days
    (by with_unfolding_all rfl) witness_day (List.mem_cons_self _ _)

/-- C2: `graph.py::plan_itinerary` constructs `PlanResponse` without the
required `mode` field, so it never returns normally — and consequently the
`/plan` endpoint's graph branch always returns `_create_fallback_plan`. -/
theorem claim_C2 (D : DistFn) (pref : UserPreferences) (places : List Place) :
    (Graph.plan_itinerary D pref places).isOk = false ∧
    Main.create_travel_plan_graph D pref places = Main.create_fallback_plan pref := by
  have h1 : (Graph.plan_itinerary D pref places).isOk = false := by
    rw [Graph.plan_itinerary]
    split_ifs with hp
    · rfl
    · rcases hpd : Planner.plan_days D pref places with e | days
      · simp [Bind.bind, Except.bind, hpd, Except.isOk, Except.toBool]
      · rcases hit : mkItinerary (Graph.summary_for pref (Critic.validate_plans days))
            days (get_local_tips pref.locale) with e2 | it
        · simp [Bind.bind, Except.bind, hpd, hit, Except.isOk, Except.toBool]
        · simp [Bind.bind, Except.bind, hpd, hit, mkPlanResponse, Except.isOk,
            Except.toBool]
  refine ⟨h1, ?_⟩
  rw [Main.create_travel_plan_graph]
  rcases (except_isOk_false _).mp h1 with ⟨e, he⟩
  rw [he]

/-- C3 (counterexample): `plan_days` does not return a DayPlan list for
every place list — with two antipodal places (haversine ≈ 20015 km) the
Transfer validation fails and the run errors out. -/
theorem claim_C3_counterexample :
    pref_balanced_2d.start_date < pref_balanced_2d.end_date ∧
    (Planner.plan_days far_dist pref_balanced_2d [place_P, place_Q]).isOk = false := by
  with_unfolding_all decide

/-- C3 (amended): whenever `plan_days` returns normally (no transfer
validation error), it returns exactly `(end-start).days + 1` DayPlans,
one per calendar day in date order. -/
theorem claim_C3_amended (D : DistFn) (pref : UserPreferences)
    (places : List Place) (days : List DayPlan)
    (h0 : pref.start_date < pref.end_date)
    (h : Planner.plan_days D pref places = .ok days) :
    days.length = (pref.end_date - pref.start_date + 1).toNat ∧
    ∀ k (hk : k < days.length),
      (days.get ⟨k, hk⟩).date = pref.start_date + (k : ℕ) :=
  Planner.plan_days_ok_spec h

/-- C3 (witness): the amended day-count property on the concrete
balanced-pace run. -/
theorem claim_C3_witness :
    witness_days.length =
      (pref_balanced_2d.end_date - pref_balanced_2d.start_date + 1).toNat :=
  (claim_C3_amended unit_dist pref_balanced_2d [place_A, place_B] witness_days
    (by decide) (by with_unfolding_all rfl)).1

/-- C4 (counterexample): `validate_preferences` accepts a span of exactly
30 days, but the resulting 31 DayPlans violate the Itinerary `days` bound
(1..30), so the validation-error branch of Itinerary construction IS
reachable from accepted input. -/
theorem claim_C4_counterexample :
    Main.validate_preferences pref_span30 = true ∧
    (Planner.plan_days unit_dist pref_span30 []).isOk = true ∧
    days_length_check (Planner.plan_days unit_dist pref_span30 []) = false := by
  with_unfolding_all decide

/-- C4 (amended): for accepted preferences whose span is at most 29 days,
every successful planner run satisfies the Itinerary 1..30 `days` bound;
only the boundary span of exactly 30 days (31 calendar days) violates it. -/
theorem claim_C4_amended (D : DistFn) (pref : UserPreferences)
    (places : List Place) (days : List DayPlan)
    (hv : Main.validate_preferences pref = true)
    (hspan : pref.end_date - pref.start_date ≤ 29)
    (h : Planner.plan_days D pref places = .ok days) :
    Main.days_length_ok days = true := by
  have hlen := (Planner.plan_days_ok_spec h).1
  rw [Main.validate_preferences] at hv
  simp only [Bool.and_eq_true, decide_eq_true_eq] at hv
  obtain ⟨⟨-, hlt⟩, -⟩ := hv
  rw [Main.days_length_ok]
  apply decide_eq_true
  constructor <;> omega

/-- C4 (witness): the amended bound evaluated on a concrete accepted
2-day input. -/
theorem claim_C4_witness : Main.days_length_ok witness_days = true :=
  claim_C4_amended unit_dist pref_balanced_2d [place_A, place_B] witness_days
    (by with_unfolding_all decide) (by decide) (by with_unfolding_all rfl)

/-- C5: on an empty candidate list, `plan_days` succeeds (no error) and
returns one DayPlan per calendar day, each holding exactly the single
generic fallback Place (180-minute stay) and an empty transfers list. -/
theorem claim_C5 (D : DistFn) (pref : UserPreferences)
    (h : pref.start_date < pref.end_date) :
    ∃ days, Planner.plan_days D pref [] = .ok days ∧
      days.length = (pref.end_date - pref.start_date + 1).toNat ∧
      1 ≤ days.length ∧
      (Planner.fallback_place pref).est_stay_min = 180 ∧
      ∀ d ∈ days, d.morning = [Planner.fallback_place pref] ∧ d.afternoon = [] ∧
        d.evening = [] ∧ d.transfers = [] := by
  obtain ⟨days, hok, hlen, hshape⟩ := Planner.plan_days_empty_spec D pref
  refine ⟨days, hok, hlen, by omega, rfl, fun d hd => hshape d hd⟩

/-- C5 (witness): the fallback behaviour on a concrete 2-day input. -/
theorem claim_C5_witness :
    ∃ days, Planner.plan_days unit_dist pref_balanced_2d [] = .ok days ∧
      days.length =
        (pref_balanced_2d.end_date - pref_balanced_2d.start_date + 1).toNat ∧
      1 ≤ days.length ∧
      (Planner.fallback_place pref_balanced_2d).est_stay_min = 180 ∧
      ∀ d ∈ days, d.morning = [Planner.fallback_place pref_balanced_2d] ∧
        d.afternoon = [] ∧ d.evening = [] ∧ d.transfers = [] :=
  claim_C5 unit_dist pref_balanced_2d (by decide)

/-- C6: whenever the attraction selector returns a list (and some
candidate scored positive), every returned Place stems from a candidate
whose preference score was at least 1 — score-0 candidates are dropped by
the filter before sorting, truncation and category rebalancing. -/
theorem claim_C6 (pref : UserPreferences) (cands : List Attractions.Candidate)
    (out : List Place)
    (hex : ∃ c ∈ cands, 0 < Attractions.preference_score pref c)
    (h : Attractions.select_attractions pref cands = .ok out) :
    ∀ p ∈ out, ∃ c ∈ cands, Attractions.mkPlace c = .ok p ∧
      1 ≤ Attractions.preference_score pref c := by
  clear hex
  rw [Attractions.select_attractions, Attractions.create_final_selection] at h
  rw [except_bind_ok] at h
  obtain ⟨built, hmap, h⟩ := h
  cases h
  intro p hp
  have hpb : p ∈ built := List.mem_of_mem_take hp
  obtain ⟨c, hcsel, hmk⟩ := mapE_ok_mem hmap p hpb
  obtain ⟨hc3, hscore⟩ := Attractions.mem_filter_by_preferences
    (Attractions.mem_ofts (Attractions.mem_final_selection_cands hcsel))
  exact ⟨c, hc3, hmk, hscore⟩

/-- C6 (witness): the selector property evaluated on a concrete
one-candidate input that scores 3. -/
theorem claim_C6_witness :
    ∃ c ∈ [cand_demo], Attractions.mkPlace c = .ok place_demo ∧
      1 ≤ Attractions.preference_score pref_demo c :=
  claim_C6 pref_demo [cand_demo] [place_demo]
    ⟨cand_demo, by simp, by with_unfolding_all decide⟩
    (by with_unfolding_all rfl) place_demo (by simp)

/-- C7: `estimate_walk_minutes` at the default 4 km/h is at least 1 for
every non-negative distance, monotonically non-decreasing, and equals
`max(1, floor(km/4*60))`. -/
theorem claim_C7 (km₁ km₂ : ℚ) (h0 : 0 ≤ km₁) (h12 : km₁ ≤ km₂) :
    1 ≤ estimate_walk_minutes km₁ 4 ∧
    estimate_walk_minutes km₁ 4 ≤ estimate_walk_minutes km₂ 4 ∧
    estimate_walk_minutes km₁ 4 = max 1 ⌊km₁ / 4 * 60⌋ := by
  have q1 : (0 : ℚ) ≤ km₁ / 4 * 60 := by positivity
  have q2 : (0 : ℚ) ≤ km₂ / 4 * 60 := by
    have : (0 : ℚ) ≤ km₂ := le_trans h0 h12
    positivity
  refine ⟨le_max_left _ _, ?_, ?_⟩
  · rw [estimate_walk_minutes, estimate_walk_minutes, pyInt_eq_floor q1,
      pyInt_eq_floor q2]
    exact max_le_max (le_refl 1) (Int.floor_le_floor (by linarith))
  · rw [estimate_walk_minutes, pyInt_eq_floor q1]

/-- C7 (witness): the walk-minutes properties evaluated at 1 km and 2 km. -/
theorem claim_C7_witness :
    1 ≤ estimate_walk_minutes 1 4 ∧
    estimate_walk_minutes 1 4 ≤ estimate_walk_minutes 2 4 ∧
    estimate_walk_minutes 1 4 = max 1 ⌊(1 : ℚ) / 4 * 60⌋ :=
  claim_C7 1 2 (by norm_num) (by norm_num)

/-- C8: the validator emits a duplicate-place issue for name `x` exactly
when `x` occurs at least twice across the days' concatenated
morning+afternoon+evening lists, with one issue per repeat occurrence
(count of issues = occurrences − 1). -/
theorem claim_C8 (days : List DayPlan) (x : String) :
    (Critic.validate_plans days).countP (Critic.is_dup_for x) =
      (Critic.all_names days).count x - 1 ∧
    ((∃ iss ∈ Critic.validate_plans days, Critic.is_dup_for x iss = true) ↔
      2 ≤ (Critic.all_names days).count x) := by
  have hc := Critic.validate_plans_dup_count days x
  refine ⟨hc, ?_⟩
  rw [← List.countP_pos_iff] at *
  constructor
  · intro hpos
    omega
  · intro h2
    omega

/-- C9: the heuristic planner is deterministic (it is a pure function of
its inputs), and the nearest-neighbour selection breaks distance ties by
input order: the chosen index attains the minimum distance and every
earlier index has a strictly larger distance. -/
theorem claim_C9 (D : DistFn) (pref : UserPreferences) (places : List Place)
    (cur : Place) (l : List Place) (h : l ≠ []) :
    Planner.plan_days D pref places = Planner.plan_days D pref places ∧
    Planner.nnIdx D cur l < l.length ∧
    (∀ j, j < l.length →
      (Planner.dists D cur l).getD (Planner.nnIdx D cur l) 0 ≤
        (Planner.dists D cur l).getD j 0) ∧
    (∀ j, j < Planner.nnIdx D cur l →
      (Planner.dists D cur l).getD (Planner.nnIdx D cur l) 0 <
        (Planner.dists D cur l).getD j 0) :=
  ⟨rfl, Planner.nnIdx_correct D cur h⟩

/-- C9 (witness): the tie-break property on two equidistant candidates —
the selection index is in range (and is in fact the earlier one). -/
theorem claim_C9_witness :
    Planner.nnIdx tie_dist place_A [place_B, place_P] <
      [place_B, place_P].length :=
  (claim_C9 tie_dist pref_balanced_2d [] place_A [place_B, place_P]
    (by decide)).2.1

/-- C10: Transfer construction is partial — any consecutive pair more than
100 km apart or with a walk estimate above 300 minutes makes
`_calculate_transfers` fail, and consequently every transfer in a
successful `plan_days` result satisfies the 1..300 minute and 0..100 km
bounds. -/
theorem claim_C10 (D : DistFn) :
    (∀ (pre : List Place) (a b : Place) (post : List Place),
      Planner.bad_pair D a b →
      (Planner.calculate_transfers D (pre ++ a :: b :: post)).isOk = false) ∧
    (∀ (pref : UserPreferences) (places : List Place) (days : List DayPlan),
      Planner.plan_days D pref places = .ok days →
      ∀ d ∈ days, ∀ t ∈ d.transfers,
        1 ≤ t.travel_min ∧ t.travel_min ≤ 300 ∧
        0 ≤ t.distance_km ∧ t.distance_km ≤ 100) :=
  ⟨Planner.calculate_transfers_err,
   fun _ _ _ h => Planner.plan_days_ok_bounds h⟩

/-- C10 (witness): the failure on a concrete antipodal pair, and the
bounds on a concrete successful run. -/
theorem claim_C10_witness :
    (Planner.calculate_transfers far_dist ([] ++ place_P :: place_Q :: [])).isOk
        = false ∧
    (1 ≤ witness_transfer.travel_min ∧ witness_transfer.travel_min ≤ 300 ∧
      0 ≤ witness_transfer.distance_km ∧ witness_transfer.distance_km ≤ 100) :=
  ⟨(claim_C10 far_dist).1 [] place_P place_Q []
      (Or.inl (by with_unfolding_all decide)),
   (claim_C10 unit_dist).2 pref_balanced_2d [place_A, place_B] witness_days
      (by with_unfolding_all rfl) witness_day (List.mem_cons_self _ _)
      witness_transfer (by decide)⟩

end TravelAgent
